import Mathlib

/-!
# commit-helper.js: commit-message assembly, staging check and settings resolver

A shallow embedding of `src/commit-helper.js`.

* JavaScript strings are Lean `String`s (sequences of Unicode scalar values;
  unpaired surrogates are left out); the string built-ins the script calls
  (`split`, `trim`, `join`, `startsWith`, truthiness of a string) are written
  out over the character list. The script uses `length` only to tell the
  empty string from the others, so counting characters instead of UTF-16 code
  units makes no difference.
* The settings object is an association list from keys to JSON values; a key
  that is absent reads as `undefined`, which is `none` here.
* `inquirer.prompt`, `execSync`, `fs.writeFileSync` and `console.log` are
  effects: a run is the list of effects in program order together with the
  way the run ended. The answers of the user are an input of the run.
  `execSync` and `writeFileSync` are taken to return normally.
* The description question has a default (the stored description) and a
  validator: an empty submission stands for the default, and only a value the
  validator answers `true` to becomes the description.
-/

namespace CommitHelper

/-! ## JavaScript values and string built-ins -/

/-- A value read from the settings document, given as an answer or returned by
a validator. `other` stands for a JSON number, array or object; it carries
the three things the script can observe of such a value: whether it is truthy,
whether its `length` is greater than zero, and its conversion to a string. -/
inductive JsVal
  | null
  | bool (b : Bool)
  | str (s : String)
  | other (truthy : Bool) (lengthPositive : Bool) (text : String)
  deriving DecidableEq, Repr

/-- JavaScript truthiness (`if (v)`, `v ? a : b`, `v || w`). -/
def JsVal.truthy : JsVal → Bool
  | .null => false
  | .bool b => b
  | .str s => decide (s ≠ "")
  | .other t _ _ => t

/-- The conversion to a string that a template literal applies. -/
def JsVal.text : JsVal → String
  | .null => "null"
  | .bool true => "true"
  | .bool false => "false"
  | .str s => s
  | .other _ _ t => t

/-- The comparison `v.length > 0`. Reading a property of null throws, which is
`none`; a boolean has no `length`, and `undefined > 0` is false. -/
def JsVal.hasPositiveLength : JsVal → Option Bool
  | .null => none
  | .bool _ => some false
  | .str s => some (decide (s.length > 0))
  | .other _ p _ => some p

/-- The operator `a ?? b`: `b` when `a` is undefined or null, else `a`. -/
def nullish (a : Option JsVal) (b : JsVal) : JsVal :=
  match a with
  | none => b
  | some .null => b
  | some v => v

/-- The operator `a || b`: `a` when `a` is truthy, else `b`. -/
def jsOr (a b : JsVal) : JsVal :=
  if a.truthy then a else b

/-- Truthiness of a string: non-empty. -/
def strTruthy (s : String) : Bool :=
  decide (s ≠ "")

/-- Pieces of a character list cut at every occurrence of `sep`
(`String.prototype.split` with a one-character separator). -/
def splitChars (sep : Char) : List Char → List (List Char)
  | [] => [[]]
  | c :: cs =>
    if c = sep then [] :: splitChars sep cs
    else
      match splitChars sep cs with
      | [] => [[c]]
      | piece :: pieces => (c :: piece) :: pieces

/-- `s.split(sep)` for a one-character separator. -/
def jsSplit (s : String) (sep : Char) : List String :=
  (splitChars sep s.data).map String.mk

/-- The characters `String.prototype.trim` strips: ECMAScript WhiteSpace and
LineTerminator code points. -/
def isJsWhiteSpace (c : Char) : Bool :=
  let n := c.toNat
  n == 0x09 || n == 0x0A || n == 0x0B || n == 0x0C || n == 0x0D || n == 0x20 ||
  n == 0xA0 || n == 0x1680 || (0x2000 ≤ n && n ≤ 0x200A) || n == 0x2028 ||
  n == 0x2029 || n == 0x202F || n == 0x205F || n == 0x3000 || n == 0xFEFF

/-- Strip white space from both ends of a character list. -/
def trimChars (l : List Char) : List Char :=
  ((l.dropWhile isJsWhiteSpace).reverse.dropWhile isJsWhiteSpace).reverse

/-- `s.trim()`. -/
def jsTrim (s : String) : String :=
  ⟨trimChars s.data⟩

/-- `items.join(sep)`. -/
def jsJoin (sep : String) : List String → String
  | [] => ""
  | [s] => s
  | s :: t :: rest => s ++ sep ++ jsJoin sep (t :: rest)

/-- `s.startsWith(p)`. -/
def jsStartsWith (s p : String) : Bool :=
  p.data.isPrefixOf s.data

/-! ## Message assembly (`main`, lines 209-244) -/

/-- Line 211: the header,
`type` followed by `(scope)` when `scope` is truthy, then `: description`. -/
def header (type scope description : String) : String :=
  type ++ (if strTruthy scope then "(" ++ scope ++ ")" else "") ++ ": " ++ description

/-- Lines 211-227: `commitMessage` as it stands before the Fixes footer.
`format` is `settings.BREAKING_CHANGE_FORMAT`; the `switch` compares with
`===`, so only the strings `"!"` and `"BOTH"` select the first two cases. -/
def messageBeforeFooter (format : Option JsVal) (type scope description : String)
    (breakingChange : Bool) (body : String) : String :=
  let commitMessage := header type scope description
  if breakingChange then
    if format = some (.str "!") then
      commitMessage ++ "!"
    else if format = some (.str "BOTH") then
      (commitMessage ++ "!") ++ ("\n\nBREAKING CHANGE: " ++ body)
    else
      commitMessage ++ ("\n\nBREAKING CHANGE: " ++ body)
  else if strTruthy body then
    commitMessage ++ ("\n\n" ++ body)
  else
    commitMessage

/-- Line 238: `solvedDetails.split(",").map((item) => item.trim())`. -/
def solvedItems (solvedDetails : String) : List String :=
  (jsSplit solvedDetails ',').map jsTrim

/-- Lines 229-240: `solvedFooter`. -/
def solvedFooter (solved : Bool) (solvedDetails : String) : String :=
  if solved then "Fixes: " ++ jsJoin ", " (solvedItems solvedDetails) else ""

/-- Lines 242-244: the footer is appended when it is truthy. -/
def appendFooter (commitMessage : String) (solved : Bool) (solvedDetails : String) : String :=
  let footer := solvedFooter solved solvedDetails
  if strTruthy footer then commitMessage ++ ("\n\n" ++ footer) else commitMessage

/-- The value of `commitMessage` after line 244. -/
def finalMessage (format : Option JsVal) (type scope description : String)
    (breakingChange : Bool) (body : String) (solved : Bool) (solvedDetails : String) : String :=
  appendFooter (messageBeforeFooter format type scope description breakingChange body)
    solved solvedDetails

/-- Lines 258-264: the command line handed to `execSync`. `gpgSigning` is the
module variable of that name after the settings resolver has run. -/
def commitCommand (commitMessage : String) (gpgSigning : JsVal) : String :=
  let commitCommand := "git commit -m \"" ++ commitMessage ++ "\""
  if gpgSigning.truthy then commitCommand ++ " --gpg-sign" else commitCommand

/-! ## The staging check (`checkGitAdd`, lines 274-286) -/

/-- The `for` loop of `checkGitAdd`: `false` at the first line that starts
with a space, `true` when the lines run out. -/
def checkLines : List String → Bool
  | [] => true
  | line :: rest => if jsStartsWith line " " then false else checkLines rest

/-- The function `checkGitAdd` applied to the output of `git status --porcelain`. -/
def checkGitAdd (status : String) : Bool :=
  checkLines (jsSplit status '\n')

/-! ## The description validator (lines 186-188) and the prompt that runs it -/

/-- The `validate` function of the description question:
`input.length > 0 || "Description cannot be empty."`; `none` when it throws. -/
def validate (input : JsVal) : Option JsVal :=
  match input.hasPositiveLength with
  | none => none
  | some positive => some (jsOr (.bool positive) (.str "Description cannot be empty."))

/-! ## Effects and runs -/

/-- The settings object: keys with their JSON values, in insertion order. -/
abbrev Settings := List (String × JsVal)

/-- Property read `settings[key]`; `none` is `undefined`. -/
def getKey : Settings → String → Option JsVal
  | [], _ => none
  | (k, v) :: rest, key => if k = key then some v else getKey rest key

/-- Property write `settings[key] = v`: an existing key keeps its place. -/
def setKey : Settings → String → JsVal → Settings
  | [], key, v => [(key, v)]
  | (k, w) :: rest, key, v =>
    if k = key then (k, v) :: rest else (k, w) :: setKey rest key v

/-- One observable effect of the script. -/
inductive Effect
  /-- A question put to the user, identified by its inquirer `name`. -/
  | prompt (name : String)
  /-- A submitted input that the validator of the question turned down,
  with what the validator returned; the question stays open. -/
  | rejected (result : JsVal)
  /-- A command run through `execSync`. -/
  | exec (command : String)
  /-- The call `fs.writeFileSync(settingsFilePath, JSON.stringify(settings, null, 2))`
  with the settings object as it is at the call. -/
  | writeSettings (document : Settings)
  /-- A line printed with `console.log` (colour left out). -/
  | log (text : String)
  deriving DecidableEq, Repr

/-- Line 27: `defaultConfig.description`. -/
def defaultConfigDescription : String := ""

/-- Line 185: the `default` of the description question,
`settings.description ?? defaultConfig.description`. -/
def descriptionDefault (settings : Settings) : JsVal :=
  nullish (getKey settings "description") (.str defaultConfigDescription)

/-- How a free-text question stands after the submissions made so far. -/
inductive Asked
  /-- An input was accepted; this is the answer. -/
  | accepted (answer : JsVal)
  /-- No input was accepted; the question is still open. -/
  | stillOpen
  /-- The validator threw. -/
  | threw
  deriving DecidableEq, Repr

/-- Modelled from the spec: what the prompt collaborator (inquirer) makes of a
line submitted to a free-text question with an optional default: the line
itself when it is not empty, else the default of the question, else (no
default, or a null one) the empty string. -/
def submittedValue (dflt : JsVal) (input : String) : JsVal :=
  if input ≠ "" then .str input
  else if dflt = .null then .str ""
  else dflt

/-- Modelled from the spec: the interactive prompt collaborator (inquirer) for a
free-text question with a default and a validator. Each submitted line,
with the default standing in for an empty one, is given to the validator; the
answer `true` accepts the value, any other answer is shown to the user and the
question is asked again. `inputs` are the successive submissions of the
user. -/
def promptInput (validator : JsVal → Option JsVal) (dflt : JsVal) :
    List String → List Effect × Asked
  | [] => ([], .stillOpen)
  | input :: later =>
    match validator (submittedValue dflt input) with
    | none => ([], .threw)
    | some result =>
      if result = .bool true then ([], .accepted (submittedValue dflt input))
      else
        (Effect.rejected result :: (promptInput validator dflt later).1,
          (promptInput validator dflt later).2)

/-- How a run of `main` ends. -/
inductive Outcome
  /-- The function returned after one of the two "Commit aborted" notices. -/
  | aborted
  /-- The description question never received an accepted input. -/
  | awaitingDescription
  /-- The function returned after `git commit` ran. -/
  | committed
  /-- An exception left the function. -/
  | threw
  deriving DecidableEq, Repr

/-- The effects of a run, in order, and its outcome. -/
structure Run where
  effects : List Effect
  outcome : Outcome
  deriving DecidableEq, Repr

/-- Put effects that happened earlier in front of a run. -/
def Run.after (earlier : List Effect) (r : Run) : Run :=
  ⟨earlier ++ r.effects, r.outcome⟩

/-! ## The settings resolver (module top level, lines 31-134) -/

/-- The three values the breaking-change format list question can return. -/
inductive FormatChoice
  | breakingChangeText
  | bang
  | both
  deriving DecidableEq, Repr

/-- The `value` of each choice (lines 58-60). -/
def FormatChoice.value : FormatChoice → String
  | .breakingChangeText => "BREAKING CHANGE"
  | .bang => "!"
  | .both => "BOTH"

/-- The answers of the user to the resolver's questions. -/
structure SetupAnswers where
  confirmGpgSigning : Bool
  confirmBreakingChangeFormat : FormatChoice
  confirmAdvancedConfig : Bool
  breakingChange : Bool
  solved : Bool
  footer : String
  description : String
  title : String
  deriving DecidableEq, Repr

/-- State after a resolver step: effects so far and the settings object. -/
structure SetupState where
  effects : List Effect
  settings : Settings
  deriving DecidableEq, Repr

/-- Lines 32-47; the second component is the variable `gpgSigning`. -/
def resolveGpgSigning (a : SetupAnswers) (st : SetupState) : SetupState × JsVal :=
  match getKey st.settings "GPG_SIGNING" with
  | none =>
    let gpgSigning := JsVal.bool a.confirmGpgSigning
    let settings := setKey st.settings "GPG_SIGNING" gpgSigning
    (⟨st.effects ++ [.prompt "confirmGpgSigning", .writeSettings settings,
        .log "🔧 GPG signing preference saved."], settings⟩, gpgSigning)
  | some gpgSigning => (st, gpgSigning)

/-- Lines 50-70. -/
def resolveBreakingChangeFormat (a : SetupAnswers) (st : SetupState) : SetupState :=
  match getKey st.settings "BREAKING_CHANGE_FORMAT" with
  | none =>
    let breakingChangeFormat := JsVal.str a.confirmBreakingChangeFormat.value
    let settings := setKey st.settings "BREAKING_CHANGE_FORMAT" breakingChangeFormat
    ⟨st.effects ++ [.prompt "confirmBreakingChangeFormat", .writeSettings settings,
        .log "🔧 Breaking change format preference saved."], settings⟩
  | some _ => st

/-- Lines 123-127: the five default values stored after the sub-prompts. -/
def storeAdvanced (a : SetupAnswers) (settings : Settings) : Settings :=
  let settings := setKey settings "breakingChange" (.bool a.breakingChange)
  let settings := setKey settings "solved" (.bool a.solved)
  let settings := setKey settings "footer" (.str a.footer)
  let settings := setKey settings "description" (.str a.description)
  setKey settings "title" (.str a.title)

/-- The five questions of the one `inquirer.prompt` call of lines 89-120. -/
def advancedPrompts : List Effect :=
  [.prompt "breakingChange", .prompt "solved", .prompt "footer", .prompt "description",
    .prompt "title"]

/-- Lines 73-134. -/
def resolveAdvanced (a : SetupAnswers) (st : SetupState) : SetupState :=
  match getKey st.settings "ADVANCE_OPTIONS" with
  | none =>
    let settings := setKey st.settings "ADVANCE_OPTIONS" (.bool a.confirmAdvancedConfig)
    let effects := st.effects ++ [.prompt "confirmAdvancedConfig", .writeSettings settings]
    if a.confirmAdvancedConfig then
      let settings := storeAdvanced a settings
      ⟨effects ++ advancedPrompts ++ [.writeSettings settings,
          .log "🔧 Advanced and default configuration preferences saved."], settings⟩
    else
      ⟨effects ++ [.log "🔧 Advanced configurations are disabled."], settings⟩
  | some _ => st

/-- Lines 31-134 in order, from the settings object loaded at start-up. The
last component is the module variable `gpgSigning`. -/
def resolveSettings (initial : Settings) (a : SetupAnswers) : SetupState × JsVal :=
  let r := resolveGpgSigning a ⟨[], initial⟩
  (resolveAdvanced a (resolveBreakingChangeFormat a r.1), r.2)

/-! ## `main` (lines 136-272) -/

/-- The ten values the change-type list question can return (lines 163-172). -/
inductive CommitType
  | feat | fix | docs | style | refactor | perf | test | build | chore | ci
  deriving DecidableEq, Repr

/-- The `value` of each choice. -/
def CommitType.value : CommitType → String
  | .feat => "feat"
  | .fix => "fix"
  | .docs => "docs"
  | .style => "style"
  | .refactor => "refactor"
  | .perf => "perf"
  | .test => "test"
  | .build => "build"
  | .chore => "chore"
  | .ci => "ci"

/-- What the user answers to each question `main` may ask. A question that is
not reached leaves its answer unused. `descriptionInputs` are the successive
submissions to the description question. -/
structure Answers where
  confirmGitAdd : Bool
  type : CommitType
  scope : String
  descriptionInputs : List String
  breakingChange : Bool
  body : String
  solved : Bool
  solvedDetails : String
  confirm : Bool
  deriving DecidableEq, Repr

/-- Lines 246-271: the message is shown, the confirmation is asked and, when
it is given, the commit command is run. -/
def confirmAndCommit (commitMessage : String) (gpgSigning : JsVal) (confirm : Bool) : Run :=
  let shown := [Effect.log ("\n✅ Commit message created: \n" ++ commitMessage ++ "\n"),
    .prompt "confirm"]
  if confirm then
    ⟨shown ++ [.exec (commitCommand commitMessage gpgSigning),
        .log "✅ Commit successful!", .log "\n🚀 Now push your changes with:",
        .log "git push -u <origin>"], .committed⟩
  else
    ⟨shown ++ [.log "❌ Commit aborted."], .aborted⟩

/-- Lines 157-271: the commit questions, the message and the commit. The
description is whatever value the question accepted; the template literal of
line 211 converts it to a string. -/
def collectAndCommit (settings : Settings) (gpgSigning : JsVal) (a : Answers) : Run :=
  let described := promptInput validate (descriptionDefault settings) a.descriptionInputs
  let asked := [Effect.prompt "type", .prompt "scope", .prompt "description"] ++ described.1
  match described.2 with
  | .stillOpen => ⟨asked, .awaitingDescription⟩
  | .threw => ⟨asked, .threw⟩
  | .accepted description =>
    let commitMessage := finalMessage (getKey settings "BREAKING_CHANGE_FORMAT") a.type.value
      a.scope description.text a.breakingChange a.body a.solved a.solvedDetails
    (confirmAndCommit commitMessage gpgSigning a.confirm).after
      (asked ++ [.prompt "breakingChange", .prompt "body", .prompt "solved"] ++
        (if a.solved then [.prompt "solvedDetails"] else []))

/-- The function `main`; `status` is what `git status --porcelain` printed. -/
def main (settings : Settings) (gpgSigning : JsVal) (status : String) (a : Answers) : Run :=
  let isGitAdded := checkGitAdd status
  let started := [Effect.exec "git status --porcelain"]
  if !isGitAdded then
    if a.confirmGitAdd then
      (collectAndCommit settings gpgSigning a).after
        (started ++ [.prompt "confirmGitAdd", .exec "git add .",
          .log "✅ git add . executed successfully!"])
    else
      ⟨started ++ [.prompt "confirmGitAdd",
        .log "❌ Commit aborted due to un-staged changes."], .aborted⟩
  else
    (collectAndCommit settings gpgSigning a).after started

/-- The whole script: the settings resolver, then `main` (line 288) with the
settings object and `gpgSigning` the resolver leaves. -/
def program (initial : Settings) (setup : SetupAnswers) (status : String) (a : Answers) : Run :=
  let resolved := resolveSettings initial setup
  (main resolved.1.settings resolved.2 status a).after resolved.1.effects

/-! ## Notions the claims speak of -/

/-- The first line of a text: what stands before the first line feed, or the
whole text when it has none. -/
def firstLine (s : String) : String :=
  ⟨s.data.takeWhile (fun c => c != '\n')⟩

/-- A text neither starts nor ends with a white-space character. -/
def Trimmed (s : String) : Prop :=
  (∀ c, s.data.head? = some c → isJsWhiteSpace c = false) ∧
    (∀ c, s.data.getLast? = some c → isJsWhiteSpace c = false)

/-- A run assembles `message`: it consists of effects among which the only
commands are the status query and `git add .`, followed by lines 246-271 run
on `message`, so that `message` is the text shown to the user and, when the
user confirms, the text put into the commit command. -/
def Assembles (r : Run) (message : String) (gpgSigning : JsVal) (confirm : Bool) : Prop :=
  ∃ before : List Effect,
    r = (confirmAndCommit message gpgSigning confirm).after before ∧
      ∀ cmd, Effect.exec cmd ∈ before → cmd = "git status --porcelain" ∨ cmd = "git add ."

/-- A text is empty or starts with a line feed. -/
def EmptyOrLineFeed (s : String) : Prop :=
  s = "" ∨ ∃ t : String, s = "\n" ++ t

/-- A question or a write of the settings file (not a notice, not a command). -/
def Effect.isQuestionOrWrite : Effect → Bool
  | .prompt _ => true
  | .writeSettings _ => true
  | _ => false

/-- A write of the settings file. -/
def Effect.isWrite : Effect → Bool
  | .writeSettings _ => true
  | _ => false

/-- A question. -/
def Effect.isPrompt : Effect → Bool
  | .prompt _ => true
  | _ => false

/-- The number of keys among the three top-level ones that read `undefined`. -/
def undefinedTopLevel (settings : Settings) : Nat :=
  (if getKey settings "GPG_SIGNING" = none then 1 else 0) +
  (if getKey settings "BREAKING_CHANGE_FORMAT" = none then 1 else 0) +
  (if getKey settings "ADVANCE_OPTIONS" = none then 1 else 0)

/-- A character that stands for itself in an unquoted shell word: a letter, a
digit or one of `-`, `_`, `.`, `/`, `:`, `,`, `+`, `@`. -/
def isShPlain (c : Char) : Bool :=
  c.isAlphanum || c == '-' || c == '_' || c == '.' || c == '/' || c == ':' || c == ',' ||
    c == '+' || c == '@'

/-- Word splitting of a shell command line, as `/bin/sh -c` does it for the
command `execSync` is given, on the fragment made of blanks, double-quoted
text and plain characters: blanks outside quotes separate words, a double
quote opens or closes quoted text and is itself removed, quoted text is kept
as it is (line feeds included) and joins the word it touches. `none` for a
line outside the fragment: an unclosed quote, or a dollar sign, backquote or
backslash inside quotes, or any other character outside quotes.
`word` is the word being read, if one has started. -/
def shWordsFrom : List Char → Bool → Option (List Char) → Option (List (List Char))
  | [], false, none => some []
  | [], false, some w => some [w]
  | [], true, _ => none
  | c :: cs, false, word =>
    if c = Char.ofNat 34 then shWordsFrom cs true (some (word.getD []))
    else if c = ' ' ∨ c = '\t' then
      match word with
      | none => shWordsFrom cs false none
      | some w => (shWordsFrom cs false none).map (fun ws => w :: ws)
    else if isShPlain c then shWordsFrom cs false (some (word.getD [] ++ [c]))
    else none
  | c :: cs, true, word =>
    if c = Char.ofNat 34 then shWordsFrom cs false word
    else if c = Char.ofNat 36 ∨ c = Char.ofNat 96 ∨ c = Char.ofNat 92 then none
    else shWordsFrom cs true (some (word.getD [] ++ [c]))

/-- The words (arguments) of a command line. -/
def shWords (command : String) : Option (List String) :=
  (shWordsFrom command.data false none).map (fun ws => ws.map String.mk)

/-- A line of `git status --porcelain` output, two status columns, a space and
a path, lists a file that is not added: its second (worktree) column is not
blank, or the entry is an untracked `??` one. -/
def lineNotAdded (line : String) : Bool :=
  match line.data with
  | x :: y :: ' ' :: _ => y != ' ' || (x == '?' && y == '?')
  | _ => false

/-- Some line of the status output lists a file that is not added. -/
def someFileNotAdded (status : String) : Bool :=
  (jsSplit status '\n').any lineNotAdded

/-! ## Lemmas on the string built-ins -/

theorem splitChars_ne_nil (sep : Char) (l : List Char) : splitChars sep l ≠ [] := by
  induction l with
  | nil => simp [splitChars]
  | cons c cs ih =>
    unfold splitChars
    split
    · simp
    · split <;> simp

theorem splitChars_sep_not_mem (sep : Char) (l piece : List Char)
    (h : piece ∈ splitChars sep l) : sep ∉ piece := by
  induction l generalizing piece with
  | nil =>
    simp [splitChars] at h
    simp [h]
  | cons c cs ih =>
    unfold splitChars at h
    split at h
    · rcases List.mem_cons.mp h with h1 | h1
      · simp [h1]
      · exact ih piece h1
    · rename_i hc
      split at h
      · rename_i hnil
        exact absurd hnil (splitChars_ne_nil sep cs)
      · rename_i q qs hq
        rcases List.mem_cons.mp h with h1 | h1
        · subst h1
          have hq1 : sep ∉ q := ih q (by rw [hq]; exact List.mem_cons_self _ _)
          intro hmem
          rcases List.mem_cons.mp hmem with h2 | h2
          · exact hc h2.symm
          · exact hq1 h2
        · exact ih piece (by rw [hq]; exact List.mem_cons_of_mem _ h1)

theorem jsJoin_cons_char (sep : String) (c : Char) (piece : List Char)
    (pieces : List (List Char)) :
    jsJoin sep (((c :: piece) :: pieces).map String.mk) =
      ⟨c :: (jsJoin sep ((piece :: pieces).map String.mk)).data⟩ := by
  cases pieces with
  | nil => simp [jsJoin]
  | cons q qs =>
    apply String.ext
    simp [jsJoin, String.data_append]

theorem jsJoin_splitChars (sep : Char) (l : List Char) :
    jsJoin ⟨[sep]⟩ ((splitChars sep l).map String.mk) = ⟨l⟩ := by
  induction l with
  | nil => simp [splitChars, jsJoin]
  | cons c cs ih =>
    unfold splitChars
    split
    · rename_i hc
      cases hs : splitChars sep cs with
      | nil => exact absurd hs (splitChars_ne_nil sep cs)
      | cons q qs =>
        rw [hs] at ih
        apply String.ext
        have := congrArg String.data ih
        simp only [List.map_cons, jsJoin, String.data_append] at this ⊢
        simp [this, hc]
    · cases hs : splitChars sep cs with
      | nil => exact absurd hs (splitChars_ne_nil sep cs)
      | cons q qs =>
        rw [hs] at ih
        simp only []
        rw [jsJoin_cons_char, ih]

theorem trimChars_head_not_space (l : List Char) (c : Char)
    (h : (trimChars l).head? = some c) : isJsWhiteSpace c = false := by
  have hp : trimChars l <+: l.dropWhile isJsWhiteSpace :=
    List.rdropWhile_prefix isJsWhiteSpace (l.dropWhile isJsWhiteSpace)
  obtain ⟨t, ht⟩ := hp
  have hd := List.head?_dropWhile_not isJsWhiteSpace l
  rw [← ht] at hd
  cases hl : trimChars l with
  | nil => rw [hl] at h; simp at h
  | cons x xs =>
    rw [hl] at h hd
    simp at h hd
    rw [← h]
    exact hd

theorem trimChars_last_not_space (l : List Char) (c : Char)
    (h : (trimChars l).getLast? = some c) : isJsWhiteSpace c = false := by
  unfold trimChars at h
  rw [List.getLast?_reverse] at h
  have hd := List.head?_dropWhile_not isJsWhiteSpace (l.dropWhile isJsWhiteSpace).reverse
  rw [h] at hd
  exact hd

theorem trimChars_decomp (l : List Char) :
    ∃ a b : List Char, (∀ c ∈ a, isJsWhiteSpace c = true) ∧ (∀ c ∈ b, isJsWhiteSpace c = true) ∧
      l = a ++ trimChars l ++ b := by
  refine ⟨l.takeWhile isJsWhiteSpace,
    ((l.dropWhile isJsWhiteSpace).reverse.takeWhile isJsWhiteSpace).reverse, ?_, ?_, ?_⟩
  · intro c hc
    exact List.mem_takeWhile_imp hc
  · intro c hc
    exact List.mem_takeWhile_imp (List.mem_reverse.mp hc)
  · have h1 := List.takeWhile_append_dropWhile isJsWhiteSpace
      (l.dropWhile isJsWhiteSpace).reverse
    have h2 := congrArg List.reverse h1
    rw [List.reverse_append, List.reverse_reverse] at h2
    unfold trimChars
    rw [List.append_assoc, h2, List.takeWhile_append_dropWhile]

theorem str_ne_empty_iff (s : String) : s ≠ "" ↔ s.data ≠ [] := by
  constructor
  · intro h hd
    exact h (String.ext hd)
  · intro h hs
    exact h (by rw [hs])

theorem length_pos_iff_ne_empty (s : String) : s.length > 0 ↔ s ≠ "" := by
  rw [str_ne_empty_iff]
  show s.data.length > 0 ↔ _
  exact List.length_pos

theorem validate_str_eq_true_iff (input : String) :
    validate (.str input) = some (.bool true) ↔ input ≠ "" := by
  rw [← length_pos_iff_ne_empty]
  unfold validate JsVal.hasPositiveLength jsOr
  by_cases h : input.length > 0 <;> simp [h, JsVal.truthy]

theorem validate_str_empty :
    validate (.str "") = some (.str "Description cannot be empty.") := by
  decide

theorem submittedValue_ne_null (dflt : JsVal) (input : String) :
    submittedValue dflt input ≠ .null := by
  unfold submittedValue
  by_cases h : input ≠ ""
  · simp [h]
  · by_cases hd : dflt = .null
    · simp [h, hd]
    · simp [h, hd]

theorem validate_ne_none (v : JsVal) (hv : v ≠ .null) : validate v ≠ none := by
  cases v <;> simp [validate, JsVal.hasPositiveLength] at hv ⊢

theorem submittedValue_cases (dflt : JsVal) (input : String) :
    submittedValue dflt input = dflt ∨ ∃ s : String, submittedValue dflt input = .str s := by
  unfold submittedValue
  by_cases h : input ≠ ""
  · right
    exact ⟨input, by simp [h]⟩
  · by_cases hd : dflt = .null
    · right
      exact ⟨"", by simp [h, hd]⟩
    · left
      simp [h, hd]

theorem promptInput_accepted_valid (dflt : JsVal) (inputs : List String) (v : JsVal)
    (h : (promptInput validate dflt inputs).2 = .accepted v) :
    validate v = some (.bool true) ∧ (v = dflt ∨ ∃ s : String, v = .str s) := by
  induction inputs with
  | nil => simp [promptInput] at h
  | cons input later ih =>
    unfold promptInput at h
    cases hv : validate (submittedValue dflt input) with
    | none => simp [hv] at h
    | some result =>
      simp only [hv] at h
      by_cases hr : result = .bool true
      · simp only [hr, if_true] at h
        have hv2 : submittedValue dflt input = v := by
          injection h
        rw [← hv2, hv, hr]
        exact ⟨rfl, submittedValue_cases dflt input⟩
      · simp only [hr, if_false] at h
        exact ih h

theorem promptInput_not_threw (dflt : JsVal) (inputs : List String) :
    (promptInput validate dflt inputs).2 ≠ .threw := by
  induction inputs with
  | nil => simp [promptInput]
  | cons input later ih =>
    unfold promptInput
    cases hv : validate (submittedValue dflt input) with
    | none => exact absurd hv (validate_ne_none _ (submittedValue_ne_null dflt input))
    | some result =>
      by_cases hr : result = .bool true
      · simp [hr]
      · simpa [hr] using ih

theorem accepted_text_ne_empty (v : JsVal) (h : validate v = some (.bool true))
    (hv : ∀ t p x, v ≠ .other t p x) : v.text ≠ "" := by
  cases v with
  | null => simp [validate, JsVal.hasPositiveLength] at h
  | bool b => simp [validate, JsVal.hasPositiveLength, jsOr, JsVal.truthy] at h
  | str s => exact (validate_str_eq_true_iff s).mp h
  | other t p x => exact absurd rfl (hv t p x)

theorem promptInput_all_empty (inputs : List String) (h : ∀ i ∈ inputs, i = "") :
    promptInput validate (.str "") inputs =
      (inputs.map (fun _ => Effect.rejected (.str "Description cannot be empty.")),
        .stillOpen) := by
  induction inputs with
  | nil => simp [promptInput]
  | cons input later ih =>
    have h0 : input = "" := h input (List.mem_cons_self _ _)
    have ih1 := ih (fun i hi => h i (List.mem_cons_of_mem _ hi))
    subst h0
    unfold promptInput
    have hs : submittedValue (.str "") "" = .str "" := by decide
    rw [hs, validate_str_empty, ih1]
    simp

theorem takeWhile_before_line_feed (a rest : List Char) (ha : '\n' ∉ a)
    (hr : rest = [] ∨ rest.head? = some '\n') :
    (a ++ rest).takeWhile (fun c => c != '\n') = a := by
  induction a with
  | nil =>
    rcases hr with hr | hr
    · simp [hr]
    · cases rest with
      | nil => simp
      | cons x xs =>
        simp at hr
        simp [hr]
  | cons x xs ih =>
    have hx : x ≠ '\n' := fun h => ha (by simp [h])
    have hxs : '\n' ∉ xs := fun h => ha (List.mem_cons_of_mem _ h)
    simp [List.takeWhile_cons, hx, ih hxs]

theorem header_no_line_feed (type scope description : String)
    (ht : '\n' ∉ type.data) (hs : '\n' ∉ scope.data) (hd : '\n' ∉ description.data) :
    '\n' ∉ (header type scope description).data := by
  unfold header
  by_cases h : strTruthy scope = true
  · simp [h, String.data_append, ht, hs, hd]
  · simp [h, String.data_append, ht, hd]

theorem header_eq (type scope description : String) :
    header type scope description =
      if scope = "" then type ++ ": " ++ description
      else type ++ "(" ++ scope ++ "): " ++ description := by
  unfold header strTruthy
  by_cases h : scope = ""
  · simp only [h, ne_eq, not_true_eq_false, decide_False, Bool.false_eq_true, if_false, if_true]
    apply String.ext
    simp [String.data_append]
  · simp only [h, ne_eq, not_false_eq_true, decide_True, if_true, if_false]
    apply String.ext
    simp [String.data_append]

theorem strTruthy_fixes (t : String) : strTruthy ("Fixes: " ++ t) = true := by
  unfold strTruthy
  rw [decide_eq_true_iff, str_ne_empty_iff]
  simp [String.data_append]

theorem startsLineFeed_append (a b : String) (ha : EmptyOrLineFeed a)
    (hb : EmptyOrLineFeed b) : EmptyOrLineFeed (a ++ b) := by
  rcases ha with ha | ⟨t, ht⟩
  · subst ha
    rcases hb with hb | ⟨u, hu⟩
    · left
      subst hb
      rfl
    · right
      exact ⟨u, by rw [hu]; apply String.ext; simp [String.data_append]⟩
  · right
    exact ⟨t ++ b, by rw [ht, String.append_assoc]⟩

theorem firstLine_append (a r : String) (ha : '\n' ∉ a.data) (hr : EmptyOrLineFeed r) :
    firstLine (a ++ r) = a := by
  apply String.ext
  unfold firstLine
  rw [String.data_append]
  apply takeWhile_before_line_feed _ _ ha
  rcases hr with hr | ⟨t, ht⟩
  · left
    rw [hr]
  · right
    rw [ht, String.data_append]
    rfl

theorem messageBeforeFooter_shape (format : Option JsVal) (type scope description : String)
    (breakingChange : Bool) (body : String) :
    ∃ tail : String, EmptyOrLineFeed tail ∧
      messageBeforeFooter format type scope description breakingChange body =
        header type scope description ++
          (if breakingChange = true ∧
              (format = some (.str "!") ∨ format = some (.str "BOTH")) then "!" else "") ++
          tail := by
  have e : ∀ t : String, "\n\n" ++ t = "\n" ++ ("\n" ++ t) := by
    intro t
    rw [← String.append_assoc]
    rfl
  have eb : ∀ t : String, "\n\nBREAKING CHANGE: " ++ t = "\n" ++ ("\nBREAKING CHANGE: " ++ t) := by
    intro t
    rw [← String.append_assoc]
    rfl
  have e0 : ∀ t : String, t ++ "" = t := by
    intro t
    apply String.ext
    simp [String.data_append]
  unfold messageBeforeFooter
  cases breakingChange
  · by_cases hbody : strTruthy body = true
    · refine ⟨"\n\n" ++ body, Or.inr ⟨_, e body⟩, ?_⟩
      simp [hbody, e0, String.append_assoc]
    · refine ⟨"", Or.inl rfl, ?_⟩
      simp [hbody, e0]
  · by_cases h1 : format = some (.str "!")
    · refine ⟨"", Or.inl rfl, ?_⟩
      simp [h1, e0]
    · by_cases h2 : format = some (.str "BOTH")
      · refine ⟨"\n\nBREAKING CHANGE: " ++ body, Or.inr ⟨_, eb body⟩, ?_⟩
        simp [h2]
      · refine ⟨"\n\nBREAKING CHANGE: " ++ body, Or.inr ⟨_, eb body⟩, ?_⟩
        simp [h1, h2, e0]

theorem appendFooter_shape (commitMessage : String) (solved : Bool) (solvedDetails : String) :
    ∃ tail : String, EmptyOrLineFeed tail ∧
      appendFooter commitMessage solved solvedDetails = commitMessage ++ tail := by
  unfold appendFooter
  by_cases h : strTruthy (solvedFooter solved solvedDetails) = true
  · refine ⟨"\n\n" ++ solvedFooter solved solvedDetails, Or.inr ⟨"\n" ++ solvedFooter solved solvedDetails, ?_⟩, ?_⟩
    · rw [← String.append_assoc]
      rfl
    · simp [h]
  · refine ⟨"", Or.inl rfl, ?_⟩
    simp only [h]
    apply String.ext
    simp [String.data_append]

theorem jsStartsWith_space_iff (line : String) :
    jsStartsWith line " " = true ↔ ∃ rest : String, line = " " ++ rest := by
  unfold jsStartsWith
  rw [List.isPrefixOf_iff_prefix]
  constructor
  · rintro ⟨t, ht⟩
    exact ⟨⟨t⟩, String.ext (by rw [String.data_append, ← ht])⟩
  · rintro ⟨rest, hr⟩
    exact ⟨rest.data, by rw [hr, String.data_append]⟩

theorem checkLines_eq_false_iff (lines : List String) :
    checkLines lines = false ↔ ∃ line ∈ lines, jsStartsWith line " " = true := by
  induction lines with
  | nil => simp [checkLines]
  | cons line rest ih =>
    unfold checkLines
    by_cases h : jsStartsWith line " " = true
    · simp [h]
    · simp [h, ih]

theorem promptInput_effects_rejected (validator : JsVal → Option JsVal) (dflt : JsVal)
    (inputs : List String) (e : Effect) (he : e ∈ (promptInput validator dflt inputs).1) :
    ∃ r, e = .rejected r := by
  induction inputs with
  | nil => simp [promptInput] at he
  | cons input later ih =>
    unfold promptInput at he
    cases hv : validator (submittedValue dflt input) with
    | none => simp [hv] at he
    | some result =>
      simp only [hv] at he
      by_cases hr : result = .bool true
      · simp [hr] at he
      · simp only [hr, if_false] at he
        rcases List.mem_cons.mp he with h | h
        · exact ⟨_, h⟩
        · exact ih h

theorem prompt_not_mem_rejections (settings : Settings) (a : Answers) (name : String) :
    Effect.prompt name ∉
      (promptInput validate (descriptionDefault settings) a.descriptionInputs).1 := by
  intro h
  obtain ⟨r, hr⟩ := promptInput_effects_rejected _ _ _ _ h
  cases hr

theorem exec_not_mem_rejections (settings : Settings) (a : Answers) (cmd : String) :
    Effect.exec cmd ∉
      (promptInput validate (descriptionDefault settings) a.descriptionInputs).1 := by
  intro h
  obtain ⟨r, hr⟩ := promptInput_effects_rejected _ _ _ _ h
  cases hr

theorem collectAndCommit_no_stage_prompt (settings : Settings) (gpgSigning : JsVal)
    (a : Answers) :
    Effect.prompt "confirmGitAdd" ∉ (collectAndCommit settings gpgSigning a).effects := by
  have hrej := prompt_not_mem_rejections settings a "confirmGitAdd"
  unfold collectAndCommit
  cases hd : (promptInput validate (descriptionDefault settings) a.descriptionInputs).2 with
  | stillOpen => simp only [hd]; simp [hrej]
  | threw => simp only [hd]; simp [hrej]
  | accepted description =>
    simp only [hd]
    cases hc : a.confirm <;> cases hs : a.solved <;>
      simp [hrej, confirmAndCommit, Run.after]

theorem collectAndCommit_starts_with_type (settings : Settings) (gpgSigning : JsVal)
    (a : Answers) :
    ∃ rest, (collectAndCommit settings gpgSigning a).effects = .prompt "type" :: rest := by
  unfold collectAndCommit
  cases hd : (promptInput validate (descriptionDefault settings) a.descriptionInputs).2 with
  | stillOpen => simp only [hd]; exact ⟨_, rfl⟩
  | threw => simp only [hd]; exact ⟨_, rfl⟩
  | accepted description =>
    simp only [hd]
    exact ⟨_, rfl⟩

theorem getKey_setKey (settings : Settings) (key key2 : String) (v : JsVal) :
    getKey (setKey settings key v) key2 =
      if key = key2 then some v else getKey settings key2 := by
  induction settings with
  | nil => simp [setKey, getKey]
  | cons kv rest ih =>
    obtain ⟨k, w⟩ := kv
    unfold setKey
    by_cases hk : k = key
    · subst hk
      by_cases h2 : k = key2 <;> simp [getKey, h2]
    · by_cases h2 : k = key2
      · subst h2
        have hk2 : ¬ key = k := fun h => hk h.symm
        simp [getKey, hk, hk2]
      · simp [getKey, hk, h2, ih]

/-! ## Lemmas on runs -/

theorem Run.after_after (r : Run) (a b : List Effect) :
    (r.after a).after b = r.after (b ++ a) := by
  simp [Run.after, List.append_assoc]

theorem Assembles.after (r : Run) (message : String) (gpgSigning : JsVal) (confirm : Bool)
    (earlier : List Effect) (h : Assembles r message gpgSigning confirm)
    (hearlier : ∀ cmd, Effect.exec cmd ∈ earlier →
      cmd = "git status --porcelain" ∨ cmd = "git add .") :
    Assembles (r.after earlier) message gpgSigning confirm := by
  obtain ⟨before, hr, hb⟩ := h
  refine ⟨earlier ++ before, ?_, ?_⟩
  · rw [hr, Run.after_after]
  · intro cmd hc
    rcases List.mem_append.mp hc with h1 | h1
    · exact hearlier cmd h1
    · exact hb cmd h1

theorem collectAndCommit_assembles (settings : Settings) (gpgSigning : JsVal) (a : Answers)
    (description : JsVal)
    (hdescribed : (promptInput validate (descriptionDefault settings) a.descriptionInputs).2 =
      .accepted description) :
    Assembles (collectAndCommit settings gpgSigning a)
      (finalMessage (getKey settings "BREAKING_CHANGE_FORMAT") a.type.value a.scope
        description.text a.breakingChange a.body a.solved a.solvedDetails)
      gpgSigning a.confirm := by
  have hrej := exec_not_mem_rejections settings a
  unfold collectAndCommit
  simp only [hdescribed]
  refine ⟨_, rfl, ?_⟩
  intro cmd hc
  exfalso
  cases hs : a.solved <;> simp [hs, hrej] at hc

theorem main_assembles (settings : Settings) (gpgSigning : JsVal) (status : String)
    (a : Answers) (description : JsVal)
    (hstaged : checkGitAdd status = true ∨ a.confirmGitAdd = true)
    (hdescribed : (promptInput validate (descriptionDefault settings) a.descriptionInputs).2 =
      .accepted description) :
    Assembles (main settings gpgSigning status a)
      (finalMessage (getKey settings "BREAKING_CHANGE_FORMAT") a.type.value a.scope
        description.text a.breakingChange a.body a.solved a.solvedDetails)
      gpgSigning a.confirm := by
  have hc := collectAndCommit_assembles settings gpgSigning a description hdescribed
  unfold main
  cases hg : checkGitAdd status
  · have hadd : a.confirmGitAdd = true := by
      rcases hstaged with h | h
      · rw [hg] at h
        cases h
      · exact h
    simp only [hadd, Bool.not_false, if_true]
    apply Assembles.after _ _ _ _ _ hc
    intro cmd hcmd
    simp at hcmd
    rcases hcmd with h | h
    · exact Or.inl h
    · exact Or.inr h
  · simp only [Bool.not_true, Bool.false_eq_true, if_false]
    apply Assembles.after _ _ _ _ _ hc
    intro cmd hcmd
    simp at hcmd
    exact Or.inl hcmd

theorem main_asks_solvedDetails_iff (settings : Settings) (gpgSigning : JsVal)
    (status : String) (a : Answers) (description : JsVal)
    (hdescribed : (promptInput validate (descriptionDefault settings) a.descriptionInputs).2 =
      .accepted description) :
    Effect.prompt "solvedDetails" ∈ (main settings gpgSigning status a).effects ↔
      (checkGitAdd status = true ∨ a.confirmGitAdd = true) ∧ a.solved = true := by
  have hrej := prompt_not_mem_rejections settings a "solvedDetails"
  unfold main collectAndCommit
  simp only [hdescribed]
  cases hg : checkGitAdd status <;> cases ha : a.confirmGitAdd <;> cases hs : a.solved <;>
    cases hc : a.confirm <;> simp [hrej, confirmAndCommit, Run.after]

theorem assembles_unique (r : Run) (m1 m2 : String) (gpgSigning : JsVal) (confirm : Bool)
    (h1 : Assembles r m1 gpgSigning confirm) (h2 : Assembles r m2 gpgSigning confirm) :
    m1 = m2 := by
  obtain ⟨b1, hr1, _⟩ := h1
  obtain ⟨b2, hr2, _⟩ := h2
  have he : b1 ++ (confirmAndCommit m1 gpgSigning confirm).effects =
      b2 ++ (confirmAndCommit m2 gpgSigning confirm).effects := by
    have := congrArg Run.effects (hr1.symm.trans hr2)
    simpa [Run.after] using this
  have hlen : (confirmAndCommit m1 gpgSigning confirm).effects.length =
      (confirmAndCommit m2 gpgSigning confirm).effects.length := by
    cases confirm <;> simp [confirmAndCommit]
  have htail := (List.append_inj' he hlen).2
  have hlog : ("\n✅ Commit message created: \n" ++ m1 ++ "\n" : String) =
      "\n✅ Commit message created: \n" ++ m2 ++ "\n" := by
    cases confirm <;> simp [confirmAndCommit] at htail <;>
      first
      | exact htail.1
      | exact htail
  have hdata := congrArg String.data hlog
  simp only [String.data_append, List.append_assoc] at hdata
  have h3 := List.append_cancel_left hdata
  have h4 := List.append_cancel_right h3
  exact String.ext h4

/-! ## Lemmas on the message -/

theorem CommitType.value_no_line_feed (t : CommitType) : '\n' ∉ t.value.data := by
  cases t <;> decide

theorem messageBeforeFooter_breaking (format : Option JsVal)
    (type scope description body : String) :
    messageBeforeFooter format type scope description true body =
      if format = some (.str "!") then header type scope description ++ "!"
      else if format = some (.str "BOTH") then
        header type scope description ++ "!" ++ "\n\nBREAKING CHANGE: " ++ body
      else header type scope description ++ "\n\nBREAKING CHANGE: " ++ body := by
  by_cases h1 : format = some (.str "!")
  · simp [messageBeforeFooter, h1]
  · by_cases h2 : format = some (.str "BOTH")
    · simp only [messageBeforeFooter, h2, if_true, if_false]
      simp
      apply String.ext
      simp [String.data_append]
    · simp only [messageBeforeFooter, h1, h2, if_true, if_false]
      apply String.ext
      simp [String.data_append]

theorem messageBeforeFooter_plain (format : Option JsVal)
    (type scope description body : String) :
    messageBeforeFooter format type scope description false body =
      if body = "" then header type scope description
      else header type scope description ++ "\n\n" ++ body := by
  by_cases hb : body = ""
  · simp [messageBeforeFooter, strTruthy, hb]
  · simp [messageBeforeFooter, strTruthy, hb, String.append_assoc]

theorem appendFooter_solved (commitMessage raw : String) :
    appendFooter commitMessage true raw =
      commitMessage ++ "\n\n" ++ "Fixes: " ++ jsJoin ", " ((jsSplit raw ',').map jsTrim) := by
  unfold appendFooter solvedFooter solvedItems
  simp only [if_true, strTruthy_fixes]
  apply String.ext
  simp [String.data_append]

theorem appendFooter_unsolved (commitMessage raw : String) :
    appendFooter commitMessage false raw = commitMessage := by
  simp [appendFooter, solvedFooter, strTruthy]

theorem firstLine_finalMessage (format : Option JsVal)
    (type scope description : String) (breakingChange : Bool) (body : String)
    (solved : Bool) (solvedDetails : String)
    (ht : '\n' ∉ type.data) (hs : '\n' ∉ scope.data) (hd : '\n' ∉ description.data) :
    firstLine (finalMessage format type scope description breakingChange body solved
        solvedDetails) =
      header type scope description ++
        (if breakingChange = true ∧ (format = some (.str "!") ∨ format = some (.str "BOTH"))
          then "!" else "") := by
  obtain ⟨t1, ht1, hm⟩ := messageBeforeFooter_shape format type scope description
    breakingChange body
  obtain ⟨t2, ht2, hf⟩ := appendFooter_shape
    (messageBeforeFooter format type scope description breakingChange body) solved solvedDetails
  unfold finalMessage
  rw [hf, hm, String.append_assoc]
  apply firstLine_append
  · have hh := header_no_line_feed type scope description ht hs hd
    split
    · simp [String.data_append, hh]
    · simpa [String.data_append] using hh
  · exact startsLineFeed_append t1 t2 ht1 ht2

/-! ## Lemmas on the description question -/

theorem descriptionDefault_not_other (settings : Settings)
    (h : ∀ t p x, getKey settings "description" ≠ some (.other t p x)) :
    ∀ t p x, descriptionDefault settings ≠ .other t p x := by
  intro t p x
  unfold descriptionDefault nullish
  cases hg : getKey settings "description" with
  | none => simp [defaultConfigDescription]
  | some v =>
    cases v with
    | null => simp [defaultConfigDescription]
    | bool b => simp
    | str s => simp
    | other t2 p2 x2 => exact absurd hg (h t2 p2 x2)

theorem accepted_description_text_ne_empty (settings : Settings) (a : Answers)
    (description : JsVal)
    (htext : ∀ t p x, getKey settings "description" ≠ some (.other t p x))
    (hdescribed : (promptInput validate (descriptionDefault settings) a.descriptionInputs).2 =
      .accepted description) :
    description.text ≠ "" := by
  obtain ⟨hv, hfrom⟩ := promptInput_accepted_valid _ _ _ hdescribed
  apply accepted_text_ne_empty description hv
  intro t p x hd
  rcases hfrom with h | ⟨s, h⟩
  · exact descriptionDefault_not_other settings htext t p x (h ▸ hd)
  · rw [h] at hd
    cases hd

theorem main_effects_of_not_accepted (settings : Settings) (gpgSigning : JsVal)
    (status : String) (a : Answers)
    (hno : ∀ d, (promptInput validate (descriptionDefault settings) a.descriptionInputs).2 ≠
      .accepted d) :
    (∀ name, Effect.prompt name ∈ (main settings gpgSigning status a).effects →
      name = "confirmGitAdd" ∨ name = "type" ∨ name = "scope" ∨ name = "description")
    ∧ (∀ cmd, Effect.exec cmd ∈ (main settings gpgSigning status a).effects →
      cmd = "git status --porcelain" ∨ cmd = "git add .") := by
  have hp := prompt_not_mem_rejections settings a
  have he := exec_not_mem_rejections settings a
  constructor
  · intro name hmem
    unfold main collectAndCommit at hmem
    cases hd : (promptInput validate (descriptionDefault settings) a.descriptionInputs).2 with
    | accepted d => exact absurd hd (hno d)
    | stillOpen =>
      simp only [hd] at hmem
      cases hg : checkGitAdd status <;> cases ha : a.confirmGitAdd <;>
        simp [hg, ha, hp, Run.after] at hmem <;> simp [hmem]
    | threw =>
      simp only [hd] at hmem
      cases hg : checkGitAdd status <;> cases ha : a.confirmGitAdd <;>
        simp [hg, ha, hp, Run.after] at hmem <;> simp [hmem]
  · intro cmd hmem
    unfold main collectAndCommit at hmem
    cases hd : (promptInput validate (descriptionDefault settings) a.descriptionInputs).2 with
    | accepted d => exact absurd hd (hno d)
    | stillOpen =>
      simp only [hd] at hmem
      cases hg : checkGitAdd status <;> cases ha : a.confirmGitAdd <;>
        simp [hg, ha, he, Run.after] at hmem <;> simp [hmem]
    | threw =>
      simp only [hd] at hmem
      cases hg : checkGitAdd status <;> cases ha : a.confirmGitAdd <;>
        simp [hg, ha, he, Run.after] at hmem <;> simp [hmem]

theorem accepted_or_not (settings : Settings) (a : Answers) :
    (∃ d, (promptInput validate (descriptionDefault settings) a.descriptionInputs).2 =
      .accepted d) ∨
    ∀ d, (promptInput validate (descriptionDefault settings) a.descriptionInputs).2 ≠
      .accepted d := by
  cases hd : (promptInput validate (descriptionDefault settings) a.descriptionInputs).2 with
  | accepted d => exact Or.inl ⟨d, rfl⟩
  | stillOpen => exact Or.inr (fun d h => by cases h)
  | threw => exact Or.inr (fun d h => by cases h)

/-! ## The claims -/

/-- C1: when `main` gets past the staging check, the description question
accepts a value and the breaking-change answer is true, the message `main`
shows and commits is, up to the Fixes footer of lines 229-244 (which is absent
when the solved answer is false): the header and `!` alone when
`settings.BREAKING_CHANGE_FORMAT` is the string `!`; the header, `!`, a blank
line and `BREAKING CHANGE: ` with the body when it is `BOTH`; the header, a
blank line and `BREAKING CHANGE: ` with the body, without `!`, for every other
value of the setting, an undefined one included. The header is
`type(scope): description` for a non-empty scope and `type: description` for
an empty one. -/
theorem breaking_message_by_format (settings : Settings) (gpgSigning : JsVal)
    (status : String) (a : Answers) (description : JsVal)
    (hstaged : checkGitAdd status = true ∨ a.confirmGitAdd = true)
    (hdescribed : (promptInput validate (descriptionDefault settings) a.descriptionInputs).2 =
      .accepted description)
    (hbreaking : a.breakingChange = true) :
    let hdr := if a.scope = "" then a.type.value ++ ": " ++ description.text
      else a.type.value ++ "(" ++ a.scope ++ "): " ++ description.text
    let format := getKey settings "BREAKING_CHANGE_FORMAT"
    let message := if format = some (.str "!") then hdr ++ "!"
      else if format = some (.str "BOTH") then hdr ++ "!" ++ "\n\nBREAKING CHANGE: " ++ a.body
      else hdr ++ "\n\nBREAKING CHANGE: " ++ a.body
    Assembles (main settings gpgSigning status a)
        (appendFooter message a.solved a.solvedDetails) gpgSigning a.confirm
    ∧ (a.solved = false →
        Assembles (main settings gpgSigning status a) message gpgSigning a.confirm) := by
  intro hdr format message
  have h := main_assembles settings gpgSigning status a description hstaged hdescribed
  have e : finalMessage (getKey settings "BREAKING_CHANGE_FORMAT") a.type.value a.scope
      description.text a.breakingChange a.body a.solved a.solvedDetails =
      appendFooter message a.solved a.solvedDetails := by
    unfold finalMessage
    rw [hbreaking, messageBeforeFooter_breaking, header_eq]
  rw [e] at h
  refine ⟨h, ?_⟩
  intro hs
  rw [hs, appendFooter_unsolved] at h
  exact h

/-- C4: when `main` gets past the staging check, the description question
accepts a value and the breaking-change answer is false, then whatever
`settings.BREAKING_CHANGE_FORMAT` is, the message `main` shows and commits is,
up to the Fixes footer, the header, a blank line and the body when the body is
non-empty, and the header alone, without `!` or `BREAKING CHANGE:` block, when
the body is empty; with the solved answer false there is no footer and this is
the whole message. -/
theorem non_breaking_message (settings : Settings) (gpgSigning : JsVal)
    (status : String) (a : Answers) (description : JsVal)
    (hstaged : checkGitAdd status = true ∨ a.confirmGitAdd = true)
    (hdescribed : (promptInput validate (descriptionDefault settings) a.descriptionInputs).2 =
      .accepted description)
    (hplain : a.breakingChange = false) :
    let hdr := if a.scope = "" then a.type.value ++ ": " ++ description.text
      else a.type.value ++ "(" ++ a.scope ++ "): " ++ description.text
    let message := if a.body = "" then hdr else hdr ++ "\n\n" ++ a.body
    Assembles (main settings gpgSigning status a)
        (appendFooter message a.solved a.solvedDetails) gpgSigning a.confirm
    ∧ (a.solved = false →
        Assembles (main settings gpgSigning status a) message gpgSigning a.confirm) := by
  intro hdr message
  have h := main_assembles settings gpgSigning status a description hstaged hdescribed
  have e : finalMessage (getKey settings "BREAKING_CHANGE_FORMAT") a.type.value a.scope
      description.text a.breakingChange a.body a.solved a.solvedDetails =
      appendFooter message a.solved a.solvedDetails := by
    unfold finalMessage
    rw [hplain, messageBeforeFooter_plain, header_eq]
  rw [e] at h
  refine ⟨h, ?_⟩
  intro hs
  rw [hs, appendFooter_unsolved] at h
  exact h

/-- C2 as stated fails: with `settings.BREAKING_CHANGE_FORMAT` the string `!`,
type feat, empty scope, description `x` (no line feed, not empty) and the
breaking-change answer true, `main` shows and commits `feat: x!`, whose first
line is not the header `feat: x`. -/
theorem first_line_bang_counterexample :
    '\n' ∉ "".data ∧ '\n' ∉ "x".data ∧ "x" ≠ ""
    ∧ main [("BREAKING_CHANGE_FORMAT", .str "!")] (.bool false) ""
        ⟨true, .feat, "", ["x"], true, "", false, "", true⟩ =
      (confirmAndCommit "feat: x!" (.bool false) true).after
        [.exec "git status --porcelain", .prompt "type", .prompt "scope",
          .prompt "description", .prompt "breakingChange", .prompt "body", .prompt "solved"]
    ∧ firstLine "feat: x!" = "feat: x!"
    ∧ firstLine "feat: x!" ≠ "feat" ++ ": " ++ "x" := by
  decide

/-- C2, amended: when `main` gets past the staging check and the description
question accepts a value, scope and description hold no line feed, and the
breaking-change answer is false or `settings.BREAKING_CHANGE_FORMAT` is neither
`!` nor `BOTH`, then `main` assembles a message, and the first line of the
message it assembles is exactly `type(scope): description` for a non-empty
scope and `type: description` for an empty one, whatever the body, the solved
answer and the identifiers are. -/
theorem first_line_is_header_unless_bang (settings : Settings) (gpgSigning : JsVal)
    (status : String) (a : Answers) (description : JsVal)
    (hstaged : checkGitAdd status = true ∨ a.confirmGitAdd = true)
    (hdescribed : (promptInput validate (descriptionDefault settings) a.descriptionInputs).2 =
      .accepted description)
    (hscope : '\n' ∉ a.scope.data) (hdescription : '\n' ∉ description.text.data)
    (hplain : a.breakingChange = false ∨
      (getKey settings "BREAKING_CHANGE_FORMAT" ≠ some (.str "!") ∧
        getKey settings "BREAKING_CHANGE_FORMAT" ≠ some (.str "BOTH"))) :
    (∃ message, Assembles (main settings gpgSigning status a) message gpgSigning a.confirm)
    ∧ ∀ message, Assembles (main settings gpgSigning status a) message gpgSigning a.confirm →
        firstLine message =
          if a.scope = "" then a.type.value ++ ": " ++ description.text
          else a.type.value ++ "(" ++ a.scope ++ "): " ++ description.text := by
  have h := main_assembles settings gpgSigning status a description hstaged hdescribed
  refine ⟨⟨_, h⟩, ?_⟩
  intro message hm
  rw [assembles_unique _ _ _ _ _ hm h, ← header_eq,
    firstLine_finalMessage _ _ _ _ _ _ _ _ (CommitType.value_no_line_feed a.type) hscope
      hdescription]
  have hno : ¬ (a.breakingChange = true ∧
      (getKey settings "BREAKING_CHANGE_FORMAT" = some (.str "!") ∨
        getKey settings "BREAKING_CHANGE_FORMAT" = some (.str "BOTH"))) := by
    rintro ⟨hb, hf⟩
    rcases hplain with hp | ⟨h1, h2⟩
    · rw [hp] at hb
      cases hb
    · rcases hf with hf | hf
      · exact h1 hf
      · exact h2 hf
  rw [if_neg hno]
  apply String.ext
  simp [String.data_append]

/-- C3: when `main` gets past the staging check and the description question
accepts a value, then with the solved answer true `main` asks for the
identifiers and the message it shows and commits is the message built by lines
211-227, then two line feeds, then `Fixes: ` and the pieces of the raw input
cut at commas, each trimmed, joined with a comma and a space; with the solved
answer false it does not ask and the message is the one built by lines 211-227
with nothing appended. The pieces are what lies between the commas (joining
them with commas gives the raw input back and no piece contains a comma);
trimming a piece removes nothing but white space at its two ends, and no
trimmed piece starts or finishes with white space. -/
theorem fixes_trailer (settings : Settings) (gpgSigning : JsVal)
    (status : String) (a : Answers) (description : JsVal)
    (hstaged : checkGitAdd status = true ∨ a.confirmGitAdd = true)
    (hdescribed : (promptInput validate (descriptionDefault settings) a.descriptionInputs).2 =
      .accepted description) :
    let built := messageBeforeFooter (getKey settings "BREAKING_CHANGE_FORMAT") a.type.value
      a.scope description.text a.breakingChange a.body
    (a.solved = true →
      Assembles (main settings gpgSigning status a)
        (built ++ "\n\n" ++ "Fixes: " ++
          jsJoin ", " ((jsSplit a.solvedDetails ',').map jsTrim)) gpgSigning a.confirm
      ∧ Effect.prompt "solvedDetails" ∈ (main settings gpgSigning status a).effects)
    ∧ (a.solved = false →
      Assembles (main settings gpgSigning status a) built gpgSigning a.confirm
      ∧ Effect.prompt "solvedDetails" ∉ (main settings gpgSigning status a).effects)
    ∧ jsJoin "," (jsSplit a.solvedDetails ',') = a.solvedDetails
    ∧ (∀ piece ∈ jsSplit a.solvedDetails ',', ',' ∉ piece.data)
    ∧ (∀ piece : String, ∃ l r : List Char,
        (∀ c ∈ l, isJsWhiteSpace c = true) ∧ (∀ c ∈ r, isJsWhiteSpace c = true) ∧
          piece.data = l ++ (jsTrim piece).data ++ r)
    ∧ (∀ item ∈ (jsSplit a.solvedDetails ',').map jsTrim, Trimmed item) := by
  intro built
  have h := main_assembles settings gpgSigning status a description hstaged hdescribed
  have hask := main_asks_solvedDetails_iff settings gpgSigning status a description hdescribed
  unfold finalMessage at h
  refine ⟨?_, ?_, ?_, ?_, ?_, ?_⟩
  · intro hs
    rw [hs, appendFooter_solved] at h
    exact ⟨h, hask.mpr ⟨hstaged, hs⟩⟩
  · intro hs
    rw [hs, appendFooter_unsolved] at h
    refine ⟨h, ?_⟩
    intro hmem
    have := (hask.mp hmem).2
    rw [hs] at this
    cases this
  · exact jsJoin_splitChars ',' a.solvedDetails.data
  · intro piece hp
    unfold jsSplit at hp
    obtain ⟨l, hl, rfl⟩ := List.mem_map.mp hp
    exact splitChars_sep_not_mem ',' a.solvedDetails.data l hl
  · intro piece
    exact trimChars_decomp piece.data
  · intro item hi
    obtain ⟨piece, _, rfl⟩ := List.mem_map.mp hi
    exact ⟨trimChars_head_not_space piece.data, trimChars_last_not_space piece.data⟩

/-- C5: the validator of the description question returns `true` exactly for
strings of length greater than zero and the text `Description cannot be
empty.` for the empty string. So a string the question accepts is never
empty. In `main`, with a stored default description that is a string (or
none), any question after the description question and any command other
than the status query and `git add .` come only after the question accepted a
description whose text is not empty; and with no stored default, while every
submission is empty each one is turned down with that text and the run stays
at the description question. -/
theorem validate_rejects_only_empty :
    (∀ input : String, validate (.str input) = some (.bool true) ↔ input.length > 0)
    ∧ validate (.str "") = some (.str "Description cannot be empty.")
    ∧ (∀ input : String, input ≠ "" → validate (.str input) = some (.bool true))
    ∧ (∀ (dflt : JsVal) (inputs : List String) (s : String),
        (promptInput validate dflt inputs).2 = .accepted (.str s) → s ≠ "")
    ∧ (∀ (settings : Settings) (gpgSigning : JsVal) (status : String) (a : Answers),
        (∀ t p x, getKey settings "description" ≠ some (.other t p x)) →
        ∀ name, Effect.prompt name ∈ (main settings gpgSigning status a).effects →
          name ≠ "confirmGitAdd" → name ≠ "type" → name ≠ "scope" → name ≠ "description" →
          ∃ description,
            (promptInput validate (descriptionDefault settings) a.descriptionInputs).2 =
              .accepted description ∧ description.text ≠ "")
    ∧ (∀ (settings : Settings) (gpgSigning : JsVal) (status : String) (a : Answers),
        (∀ t p x, getKey settings "description" ≠ some (.other t p x)) →
        ∀ cmd, Effect.exec cmd ∈ (main settings gpgSigning status a).effects →
          cmd ≠ "git status --porcelain" → cmd ≠ "git add ." →
          ∃ description,
            (promptInput validate (descriptionDefault settings) a.descriptionInputs).2 =
              .accepted description ∧ description.text ≠ "")
    ∧ (∀ (settings : Settings) (gpgSigning : JsVal) (a : Answers),
        descriptionDefault settings = .str "" →
        (∀ i ∈ a.descriptionInputs, i = "") →
          collectAndCommit settings gpgSigning a =
            ⟨[.prompt "type", .prompt "scope", .prompt "description"] ++
              a.descriptionInputs.map
                (fun _ => Effect.rejected (.str "Description cannot be empty.")),
              .awaitingDescription⟩) := by
  refine ⟨?_, validate_str_empty, ?_, ?_, ?_, ?_, ?_⟩
  · intro input
    rw [validate_str_eq_true_iff, length_pos_iff_ne_empty]
  · intro input h
    exact (validate_str_eq_true_iff input).mpr h
  · intro dflt inputs s h
    exact (validate_str_eq_true_iff s).mp (promptInput_accepted_valid _ _ _ h).1
  · intro settings gpgSigning status a htext name hmem h1 h2 h3 h4
    rcases accepted_or_not settings a with ⟨d, hd⟩ | hno
    · exact ⟨d, hd, accepted_description_text_ne_empty settings a d htext hd⟩
    · rcases (main_effects_of_not_accepted settings gpgSigning status a hno).1 name hmem
        with h | h | h | h
      · exact absurd h h1
      · exact absurd h h2
      · exact absurd h h3
      · exact absurd h h4
  · intro settings gpgSigning status a htext cmd hmem h1 h2
    rcases accepted_or_not settings a with ⟨d, hd⟩ | hno
    · exact ⟨d, hd, accepted_description_text_ne_empty settings a d htext hd⟩
    · rcases (main_effects_of_not_accepted settings gpgSigning status a hno).2 cmd hmem
        with h | h
      · exact absurd h h1
      · exact absurd h h2
  · intro settings gpgSigning a hdflt h
    unfold collectAndCommit
    rw [hdflt, promptInput_all_empty a.descriptionInputs h]

/-- C7: `checkGitAdd` returns false exactly when one of the lines of the
status output, cut at line feeds, starts with a space, and true otherwise, for
the empty output in particular. `main` asks the stage-all confirmation
exactly when `checkGitAdd` returns false, right after the status query; when
it returns true the status query is followed at once by the commit questions,
which open with the change type. -/
theorem checkGitAdd_false_iff_space_line (status : String) (settings : Settings)
    (gpgSigning : JsVal) (a : Answers) :
    (checkGitAdd status = false ↔
      ∃ line ∈ jsSplit status '\n', ∃ rest : String, line = " " ++ rest)
    ∧ (checkGitAdd status = true ↔
      ¬ ∃ line ∈ jsSplit status '\n', ∃ rest : String, line = " " ++ rest)
    ∧ jsJoin "\n" (jsSplit status '\n') = status
    ∧ (∀ line ∈ jsSplit status '\n', '\n' ∉ line.data)
    ∧ checkGitAdd "" = true
    ∧ (Effect.prompt "confirmGitAdd" ∈ (main settings gpgSigning status a).effects ↔
        checkGitAdd status = false)
    ∧ (checkGitAdd status = false →
        ∃ rest, (main settings gpgSigning status a).effects =
          .exec "git status --porcelain" :: .prompt "confirmGitAdd" :: rest)
    ∧ (checkGitAdd status = true →
        main settings gpgSigning status a =
          (collectAndCommit settings gpgSigning a).after [.exec "git status --porcelain"])
    ∧ (∃ rest, (collectAndCommit settings gpgSigning a).effects = .prompt "type" :: rest) := by
  have hiff : checkGitAdd status = false ↔
      ∃ line ∈ jsSplit status '\n', ∃ rest : String, line = " " ++ rest := by
    unfold checkGitAdd
    rw [checkLines_eq_false_iff]
    constructor
    · rintro ⟨line, hl, hs⟩
      exact ⟨line, hl, (jsStartsWith_space_iff line).mp hs⟩
    · rintro ⟨line, hl, hs⟩
      exact ⟨line, hl, (jsStartsWith_space_iff line).mpr hs⟩
  have hno := collectAndCommit_no_stage_prompt settings gpgSigning a
  refine ⟨hiff, ?_, ?_, ?_, by decide, ?_, ?_, ?_,
    collectAndCommit_starts_with_type settings gpgSigning a⟩
  · rw [← hiff]
    simp
  · exact jsJoin_splitChars '\n' status.data
  · intro line hl
    unfold jsSplit at hl
    obtain ⟨l, hl1, rfl⟩ := List.mem_map.mp hl
    exact splitChars_sep_not_mem '\n' status.data l hl1
  · unfold main
    cases hc : checkGitAdd status
    · cases hg : a.confirmGitAdd <;> simp [Run.after]
    · simpa [Run.after] using hno
  · intro hc
    unfold main
    cases hg : a.confirmGitAdd <;> simp [hc, Run.after]
  · intro hc
    unfold main
    simp [hc]

/-- C8: when `checkGitAdd` finds an unstaged line and the user declines the
stage-all confirmation, `main` ends aborted after the status query, that one
question and the abort notice: `git add .` and `git commit` are not run and no
other question is asked, whatever the remaining answers are. -/
theorem decline_stage_all_aborts (settings : Settings) (gpgSigning : JsVal)
    (status : String) (a : Answers)
    (hstatus : checkGitAdd status = false) (hdecline : a.confirmGitAdd = false) :
    main settings gpgSigning status a =
        ⟨[.exec "git status --porcelain", .prompt "confirmGitAdd",
          .log "❌ Commit aborted due to un-staged changes."], .aborted⟩
    ∧ (main settings gpgSigning status a).outcome = .aborted
    ∧ Effect.exec "git add ." ∉ (main settings gpgSigning status a).effects
    ∧ (∀ cmd, Effect.exec cmd ∈ (main settings gpgSigning status a).effects →
        cmd = "git status --porcelain")
    ∧ (∀ name, Effect.prompt name ∈ (main settings gpgSigning status a).effects →
        name = "confirmGitAdd") := by
  have h : main settings gpgSigning status a =
      ⟨[.exec "git status --porcelain", .prompt "confirmGitAdd",
        .log "❌ Commit aborted due to un-staged changes."], .aborted⟩ := by
    unfold main
    simp [hstatus, hdecline]
  rw [h]
  refine ⟨rfl, rfl, by decide, ?_, ?_⟩
  · intro cmd hc
    simpa using hc
  · intro name hn
    simpa using hn

/-- Witness of C8: one modified, unstaged file and a user who declines. -/
theorem decline_stage_all_aborts_witness :
    checkGitAdd " M src/app.js\n" = false
    ∧ main [] (.bool false) " M src/app.js\n"
        ⟨false, .feat, "api", ["add login"], false, "", false, "", true⟩ =
        ⟨[.exec "git status --porcelain", .prompt "confirmGitAdd",
          .log "❌ Commit aborted due to un-staged changes."], .aborted⟩ :=
  ⟨by decide,
    (decline_stage_all_aborts [] (.bool false) " M src/app.js\n"
      ⟨false, .feat, "api", ["add login"], false, "", false, "", true⟩
      (by decide) rfl).1⟩

/-- C9: from any initial settings object and any answers, the questions and
writes of the resolver are, in this order: the signing question and a write
when GPG_SIGNING is undefined at start, the format question and a write when
BREAKING_CHANGE_FORMAT is, the advanced question and a write when
ADVANCE_OPTIONS is, and after that last write the five default-value questions
and one more write exactly when the advanced question was asked and answered
true. Each write carries the whole settings object as it then stands. So the
writes number the undefined keys plus that one, four at most; nothing is asked
or written and the object is unchanged when all three keys are defined; and the
empty object answered false, `BREAKING CHANGE`, false gets three questions and
three writes without sub-prompts. -/
theorem resolver_questions_and_writes (initial : Settings) (a : SetupAnswers) :
    let s1 := if getKey initial "GPG_SIGNING" = none
      then setKey initial "GPG_SIGNING" (.bool a.confirmGpgSigning) else initial
    let s2 := if getKey initial "BREAKING_CHANGE_FORMAT" = none
      then setKey s1 "BREAKING_CHANGE_FORMAT" (.str a.confirmBreakingChangeFormat.value) else s1
    let s3 := setKey s2 "ADVANCE_OPTIONS" (.bool a.confirmAdvancedConfig)
    (resolveSettings initial a).1.effects.filter Effect.isQuestionOrWrite =
        (if getKey initial "GPG_SIGNING" = none
          then [.prompt "confirmGpgSigning", .writeSettings s1] else []) ++
        (if getKey initial "BREAKING_CHANGE_FORMAT" = none
          then [.prompt "confirmBreakingChangeFormat", .writeSettings s2] else []) ++
        (if getKey initial "ADVANCE_OPTIONS" = none
          then [.prompt "confirmAdvancedConfig", .writeSettings s3] ++
            (if a.confirmAdvancedConfig = true
              then advancedPrompts ++ [.writeSettings (storeAdvanced a s3)] else [])
          else [])
    ∧ ((resolveSettings initial a).1.effects.filter Effect.isWrite).length =
        undefinedTopLevel initial +
          (if getKey initial "ADVANCE_OPTIONS" = none ∧ a.confirmAdvancedConfig = true
            then 1 else 0)
    ∧ ((resolveSettings initial a).1.effects.filter Effect.isPrompt).length =
        undefinedTopLevel initial +
          (if getKey initial "ADVANCE_OPTIONS" = none ∧ a.confirmAdvancedConfig = true
            then 5 else 0)
    ∧ ((resolveSettings initial a).1.effects.filter Effect.isWrite).length ≤ 4
    ∧ (undefinedTopLevel initial = 0 → (resolveSettings initial a).1 = ⟨[], initial⟩)
    ∧ (resolveSettings [] { a with
          confirmGpgSigning := false
          confirmBreakingChangeFormat := .breakingChangeText
          confirmAdvancedConfig := false }).1.effects.filter Effect.isQuestionOrWrite =
        [.prompt "confirmGpgSigning",
          .writeSettings [("GPG_SIGNING", .bool false)],
          .prompt "confirmBreakingChangeFormat",
          .writeSettings [("GPG_SIGNING", .bool false),
            ("BREAKING_CHANGE_FORMAT", .str "BREAKING CHANGE")],
          .prompt "confirmAdvancedConfig",
          .writeSettings [("GPG_SIGNING", .bool false),
            ("BREAKING_CHANGE_FORMAT", .str "BREAKING CHANGE"),
            ("ADVANCE_OPTIONS", .bool false)]] := by
  intro s1 s2 s3
  have hlast : (resolveSettings [] { a with
      confirmGpgSigning := false
      confirmBreakingChangeFormat := .breakingChangeText
      confirmAdvancedConfig := false }).1.effects.filter Effect.isQuestionOrWrite =
      [.prompt "confirmGpgSigning",
        .writeSettings [("GPG_SIGNING", .bool false)],
        .prompt "confirmBreakingChangeFormat",
        .writeSettings [("GPG_SIGNING", .bool false),
          ("BREAKING_CHANGE_FORMAT", .str "BREAKING CHANGE")],
        .prompt "confirmAdvancedConfig",
        .writeSettings [("GPG_SIGNING", .bool false),
          ("BREAKING_CHANGE_FORMAT", .str "BREAKING CHANGE"),
          ("ADVANCE_OPTIONS", .bool false)]] := by
    simp [resolveSettings, resolveGpgSigning, resolveBreakingChangeFormat, resolveAdvanced,
      getKey, setKey, FormatChoice.value, Effect.isQuestionOrWrite]
  refine ⟨?_, ?_, ?_, ?_, ?_, hlast⟩ <;>
  cases hg : getKey initial "GPG_SIGNING" <;>
  cases hf : getKey initial "BREAKING_CHANGE_FORMAT" <;>
  cases hv : getKey initial "ADVANCE_OPTIONS" <;>
  cases ha : a.confirmAdvancedConfig <;>
  simp [s1, s2, s3, resolveSettings, resolveGpgSigning, resolveBreakingChangeFormat,
    resolveAdvanced, getKey_setKey, hg, hf, hv, ha, advancedPrompts, undefinedTopLevel,
    Effect.isQuestionOrWrite, Effect.isWrite, Effect.isPrompt, List.filter]

/-- C6, at a description that contains double quotes: type fix, empty scope
and description `handle "a b" input` give the message
`fix: handle "a b" input`; the command run is
`git commit -m "fix: handle "a b" input"`, and the shell reads five words from
it, so the message arrives as the two arguments `fix: handle a` and `b input`
instead of one unchanged argument. A message without such characters, line
feeds included, does arrive as one argument, followed by `--gpg-sign` when
signing is on. -/
theorem quoted_description_splits_commit_argument :
    finalMessage none "fix" "" "handle \"a b\" input" false "" false "" =
        "fix: handle \"a b\" input"
    ∧ Effect.exec "git commit -m \"fix: handle \"a b\" input\"" ∈
        (main [] (.bool false) ""
          ⟨true, .fix, "", ["handle \"a b\" input"], false, "", false, "", true⟩).effects
    ∧ shWords (commitCommand "fix: handle \"a b\" input" (.bool false)) =
        some ["git", "commit", "-m", "fix: handle a", "b input"]
    ∧ shWords (commitCommand "fix: null check!\n\nBREAKING CHANGE: removes legacy field"
          (.bool true)) =
        some ["git", "commit", "-m",
          "fix: null check!\n\nBREAKING CHANGE: removes legacy field", "--gpg-sign"] := by
  decide

/-- C10, at status outputs with a file that is not added but no line starting
with a space: an untracked file (`?? notes.txt`) and a staged file changed
again (`MM src/app.js`) each list a file that is not added, yet `checkGitAdd`
returns true for both and `main` goes on to the change-type question without
offering to stage. -/
theorem unstaged_entries_pass_staging_check :
    someFileNotAdded "?? notes.txt\n" = true ∧ checkGitAdd "?? notes.txt\n" = true
    ∧ someFileNotAdded "MM src/app.js\n" = true ∧ checkGitAdd "MM src/app.js\n" = true
    ∧ someFileNotAdded " M src/app.js\n" = true ∧ checkGitAdd " M src/app.js\n" = false
    ∧ someFileNotAdded "M  src/app.js\n" = false ∧ checkGitAdd "M  src/app.js\n" = true
    ∧ (main [] (.bool false) "?? notes.txt\n"
          ⟨true, .feat, "", [], false, "", false, "", true⟩).effects =
        [.exec "git status --porcelain", .prompt "type", .prompt "scope",
          .prompt "description"] := by
  decide

/-! ## The claims at concrete inputs -/

/-- Instance of C7: a staged file and an unstaged one. -/
theorem checkGitAdd_false_iff_space_line_witness :
    checkGitAdd "M  a.txt\n M b.txt\n" = false
    ∧ ∃ line ∈ jsSplit "M  a.txt\n M b.txt\n" '\n', ∃ rest : String, line = " " ++ rest :=
  ⟨by decide,
    (checkGitAdd_false_iff_space_line "M  a.txt\n M b.txt\n" [] (.bool false)
      ⟨true, .feat, "", [], false, "", false, "", true⟩).1.mp (by decide)⟩

/-- Instance of C9: a settings object with all three keys defined, and the
empty object with the advanced question answered true (four writes). -/
theorem resolver_questions_and_writes_witness :
    (resolveSettings
        [("GPG_SIGNING", .bool true), ("BREAKING_CHANGE_FORMAT", .str "!"),
          ("ADVANCE_OPTIONS", .bool false)]
        ⟨false, .both, true, true, true, "f", "d", "t"⟩).1 =
      ⟨[], [("GPG_SIGNING", .bool true), ("BREAKING_CHANGE_FORMAT", .str "!"),
          ("ADVANCE_OPTIONS", .bool false)]⟩
    ∧ ((resolveSettings [] ⟨false, .both, true, true, true, "f", "d", "t"⟩).1.effects.filter
        Effect.isWrite).length = 4 := by
  refine ⟨?_, ?_⟩
  · exact (resolver_questions_and_writes
      [("GPG_SIGNING", .bool true), ("BREAKING_CHANGE_FORMAT", .str "!"),
        ("ADVANCE_OPTIONS", .bool false)]
      ⟨false, .both, true, true, true, "f", "d", "t"⟩).2.2.2.2.1 (by decide)
  · rw [(resolver_questions_and_writes [] ⟨false, .both, true, true, true, "f", "d", "t"⟩).2.1]
    decide

/-- Instance of C1: type fix, empty scope, description `null check`, format
`BOTH`, body `removes legacy field`, solved answer false. -/
theorem breaking_message_by_format_witness :
    (promptInput validate (descriptionDefault [("BREAKING_CHANGE_FORMAT", .str "BOTH")])
        ["null check"]).2 = .accepted (.str "null check")
    ∧ Assembles
        (main [("BREAKING_CHANGE_FORMAT", .str "BOTH")] (.bool false) ""
          ⟨true, .fix, "", ["null check"], true, "removes legacy field", false, "", true⟩)
        "fix: null check!\n\nBREAKING CHANGE: removes legacy field" (.bool false) true := by
  refine ⟨by decide, ?_⟩
  have h := (breaking_message_by_format [("BREAKING_CHANGE_FORMAT", .str "BOTH")]
    (.bool false) "" ⟨true, .fix, "", ["null check"], true, "removes legacy field", false, "",
      true⟩ (.str "null check") (Or.inl (by decide)) (by decide) rfl).2 rfl
  exact h

/-- Instance of C4: type feat, scope api, description `add login`, no body,
breaking-change and solved answers false. -/
theorem non_breaking_message_witness :
    (promptInput validate (descriptionDefault []) ["add login"]).2 =
      .accepted (.str "add login")
    ∧ Assembles
        (main [] (.bool false) ""
          ⟨true, .feat, "api", ["add login"], false, "", false, "", true⟩)
        "feat(api): add login" (.bool false) true := by
  refine ⟨by decide, ?_⟩
  have h := (non_breaking_message [] (.bool false) ""
    ⟨true, .feat, "api", ["add login"], false, "", false, "", true⟩ (.str "add login")
    (Or.inl (by decide)) (by decide) rfl).2 rfl
  exact h

/-- Witness of C2, amended: type feat, scope api, description `add login`, a
breaking change under the format `BREAKING CHANGE` with a body and a Fixes
footer. -/
theorem first_line_is_header_unless_bang_witness :
    (promptInput validate
        (descriptionDefault [("BREAKING_CHANGE_FORMAT", .str "BREAKING CHANGE")])
        ["add login"]).2 = .accepted (.str "add login")
    ∧ '\n' ∉ "api".data ∧ '\n' ∉ "add login".data
    ∧ ∀ message,
        Assembles
          (main [("BREAKING_CHANGE_FORMAT", .str "BREAKING CHANGE")] (.bool true) ""
            ⟨true, .feat, "api", ["add login"], true, "drops v1", true, "12", false⟩)
          message (.bool true) false →
        firstLine message = "feat(api): add login" := by
  refine ⟨by decide, by decide, by decide, ?_⟩
  have h := (first_line_is_header_unless_bang
    [("BREAKING_CHANGE_FORMAT", .str "BREAKING CHANGE")] (.bool true) ""
    ⟨true, .feat, "api", ["add login"], true, "drops v1", true, "12", false⟩
    (.str "add login") (Or.inl (by decide)) (by decide) (by decide) (by decide)
    (Or.inr ⟨by decide, by decide⟩)).2
  exact h

/-- Instance of C3: the raw input ` 12, 34 ,56` after the message `fix: x`. -/
theorem fixes_trailer_witness :
    (promptInput validate (descriptionDefault []) ["x"]).2 = .accepted (.str "x")
    ∧ Assembles
        (main [] (.bool false) ""
          ⟨true, .fix, "", ["x"], false, "", true, " 12, 34 ,56", true⟩)
        "fix: x\n\nFixes: 12, 34, 56" (.bool false) true := by
  refine ⟨by decide, ?_⟩
  have h := ((fixes_trailer [] (.bool false) ""
    ⟨true, .fix, "", ["x"], false, "", true, " 12, 34 ,56", true⟩ (.str "x")
    (Or.inl (by decide)) (by decide)).1 rfl).1
  exact h

/-- Instance of C5: two empty submissions and then `add login`, with no stored
default; and an empty submission with the stored default `wip`. -/
theorem validate_rejects_only_empty_witness :
    promptInput validate (descriptionDefault []) ["", "", "add login"] =
      ([.rejected (.str "Description cannot be empty."),
        .rejected (.str "Description cannot be empty.")], .accepted (.str "add login"))
    ∧ (promptInput validate (descriptionDefault [("description", .str "wip")]) [""]).2 =
      .accepted (.str "wip")
    ∧ ∃ description,
        (promptInput validate (descriptionDefault [("description", .str "wip")]) [""]).2 =
          .accepted description ∧ description.text ≠ "" :=
  ⟨by decide, by decide,
    validate_rejects_only_empty.2.2.2.2.1 [("description", .str "wip")] (.bool false) ""
      ⟨true, .feat, "", [""], false, "", false, "", true⟩
      (by intro t p x; simp [getKey]) "confirm" (by decide) (by decide) (by decide) (by decide)
      (by decide)⟩

end CommitHelper
